import Mathlib

/-!
Verification development for the Shopify/OpenAI alt-text generator
(src/index.js).  The JavaScript program is shallowly embedded: the global
object `shopifyFiles` becomes an insertion-ordered association list, the
paginated GraphQL sweeps become folds over lists of simulated pages, the
retrying remote calls become recursions over lists of simulated responses,
and the CSV batch/chunk pipeline becomes pure list processing.
-/

namespace AltTextGen

/-! Store: the global `shopifyFiles` object and the JSON cache file content. -/

/-- A JS object used as a string→string map: an insertion-ordered association
list with unique keys.  `shopifyFiles` and the parsed cache file are values
of this type. -/
abbrev Store := List (String × String)

/-- Keys of the object, in insertion order (`Object.keys`). -/
def storeKeys (s : Store) : List String := s.map Prod.fst

/-- Property assignment `obj[k] = v`: overwrite in place when the key exists,
otherwise append at the end. -/
def storeSet (s : Store) (k v : String) : Store :=
  if k ∈ storeKeys s then s.map (fun p => if p.1 = k then (k, v) else p)
  else s ++ [(k, v)]

/-- Property lookup `obj[k]`: `none` models `undefined`. -/
def storeGet (s : Store) (k : String) : Option String :=
  Option.map Prod.snd (s.find? (fun p => p.1 == k))

/-- Size of the index, `Object.keys(obj).length`. -/
def storeSize (s : Store) : Nat := s.length

/-! String helpers used by the source, modelled at the character level. -/

/-- JS `String.prototype.split` with a one-character separator:
`splitOnChar sep l` never returns `[]`. -/
def splitOnChar (sep : Char) : List Char → List (List Char)
  | [] => [[]]
  | c :: cs =>
    match splitOnChar sep cs with
    | [] => [[c]]
    | h :: t => if c = sep then [] :: h :: t else (c :: h) :: t

/-- Key derivation of the index builder:
`url.split("/").pop()?.split("?")[0]` (src/index.js:101,160,226). -/
def fileNameOf (url : String) : String :=
  ⟨((splitOnChar '/' url.data).getLastD []).takeWhile (fun c => c != '?')⟩

/-- The suffix-stripping fallback of the enrichment engine:
`fileName.replace(/(_product|_collection)$/, "")` (src/index.js:371).
The non-global anchored regex removes at most one trailing occurrence. -/
def cleanFileName (s : String) : String :=
  if List.isSuffixOf "_product".data s.data then ⟨s.data.take (s.data.length - 8)⟩
  else if List.isSuffixOf "_collection".data s.data then ⟨s.data.take (s.data.length - 11)⟩
  else s

/-- JS `String.prototype.trim`. -/
def trimStr (s : String) : String :=
  ⟨List.reverse (List.dropWhile Char.isWhitespace
    (List.reverse (List.dropWhile Char.isWhitespace s.data)))⟩

/-! Paginated index builder (fetchContentImages / fetchCollectionImages,
src/index.js:55-176).  A simulated source API is a list of pages; each
request consumes the next page. -/

/-- One edge `{cursor, node}` of a `files`/`collections` response; `url` is
`node.image?.url`, absent when the node carries no usable image. -/
structure Edge where
  cursor : String
  url : Option String

/-- One page of a paginated response. -/
structure Page where
  edges : List Edge
  hasNextPage : Bool

/-- Truthiness of `node.image?.url` (`undefined` and `""` are falsy). -/
def urlTruthy (e : Edge) : Bool :=
  match e.url with
  | none => false
  | some u => u != ""

/-- Cursor effect of one edge: `endCursor = cursor` runs only when the
`if (!url) return` guard was not taken (src/index.js:95-106). -/
def cursorStep (cur : Option String) (e : Edge) : Option String :=
  match e.url with
  | none => cur
  | some u => if u = "" then cur else some e.cursor

/-- The index entry one edge contributes, if any: the edge is skipped when
the URL is missing or empty, or when the derived filename is empty;
otherwise the key is the derived filename sent through `keyOf`
(identity for content files, a `"_collection"` suffix for collections). -/
def edgeEntry (keyOf : String → String) (e : Edge) : Option (String × String) :=
  match e.url with
  | none => none
  | some u =>
    if u = "" then none
    else if fileNameOf u = "" then none
    else some (keyOf (fileNameOf u), u)

/-- Store effect of one edge. -/
def storeStep (keyOf : String → String) (st : Store) (e : Edge) : Store :=
  match edgeEntry keyOf e with
  | none => st
  | some kv => storeSet st kv.1 kv.2

/-- The `forEach(({node, cursor}) => ...)` body of the content/collection
sweeps (src/index.js:95-106,154-166): a missing or empty URL returns early,
skipping both the store write and the cursor update. -/
def processEdge (keyOf : String → String) (sc : Store × Option String) (e : Edge) :
    Store × Option String :=
  match e.url with
  | none => sc
  | some u =>
    if u = "" then sc
    else
      ((if fileNameOf u = "" then sc.1 else storeSet sc.1 (keyOf (fileNameOf u)) u),
       some e.cursor)

/-- Processing of one page's edges. -/
def processPage (keyOf : String → String) (sc : Store × Option String) (p : Page) :
    Store × Option String :=
  p.edges.foldl (processEdge keyOf) sc

/-- Result of one category sweep: final store, final `endCursor`, and the
number of page requests issued. -/
structure SweepResult where
  store : Store
  cursor : Option String
  requests : Nat

/-- The `while (hasNextPage)` pagination loop of `fetchContentImages` /
`fetchCollectionImages`: request a page, process its edges, continue while
the response reports a next page. -/
def sweepPages (keyOf : String → String) : List Page → Store → Option String → SweepResult
  | [], st, cur => ⟨st, cur, 0⟩
  | p :: rest, st, cur =>
    let sc := processPage keyOf (st, cur) p
    if p.hasNextPage then
      let r := sweepPages keyOf rest sc.1 sc.2
      ⟨r.store, r.cursor, r.requests + 1⟩
    else ⟨sc.1, sc.2, 1⟩

/-- A simulated API that returns these pages in order and reports
`hasNextPage: false` exactly on the last one. -/
def pagesWF : List Page → Bool
  | [] => false
  | [p] => !p.hasNextPage
  | p :: rest => p.hasNextPage && pagesWF rest

/-! Product sweep (fetchProductImages, src/index.js:179-242): product edges
carry nested image lists, and `endCursor = cursor` runs unconditionally
after the inner image loop. -/

/-- One `products` edge: its cursor and the URLs of its nested images
(`none` models a missing `url`). -/
structure ProdEdge where
  cursor : String
  images : List (Option String)

/-- One page of a `products` response. -/
structure ProdPage where
  edges : List ProdEdge
  hasNextPage : Bool

/-- The inner image loop body (src/index.js:220-231). -/
def processProdImage (st : Store) (ou : Option String) : Store :=
  match ou with
  | none => st
  | some u =>
    if u = "" then st
    else if fileNameOf u = "" then st
    else storeSet st (fileNameOf u ++ "_product") u

/-- One product edge: images are folded, then the cursor always advances. -/
def processProdEdge (sc : Store × Option String) (e : ProdEdge) : Store × Option String :=
  (e.images.foldl processProdImage sc.1, some e.cursor)

/-- The pagination loop of `fetchProductImages`. -/
def sweepProducts : List ProdPage → Store → Option String → SweepResult
  | [], st, cur => ⟨st, cur, 0⟩
  | p :: rest, st, cur =>
    let sc := p.edges.foldl processProdEdge (st, cur)
    if p.hasNextPage then
      let r := sweepProducts rest sc.1 sc.2
      ⟨r.store, r.cursor, r.requests + 1⟩
    else ⟨sc.1, sc.2, 1⟩

/-! Process-level state: the cache file on disk, the in-memory global
`shopifyFiles`, and a log of every store content written to disk. -/

/-- State threaded through the main flow.  `cacheFile` is the parsed content
of `shopify_files_cache.json` when the file exists; `persistLog` records
each `writeFile` of the cache in order. -/
structure SysState where
  cacheFile : Option Store
  store : Store
  persistLog : List Store

/-- Start of each fetch function (src/index.js:57-67 etc.):
`shopifyFiles = {}` then reload from the cache file when it exists. -/
def loadCacheStep (st : SysState) : SysState :=
  { st with store := st.cacheFile.getD [] }

/-- End of each fetch function: write the whole store to the cache file. -/
def persistStep (st : SysState) : SysState :=
  { st with cacheFile := some st.store, persistLog := st.persistLog ++ [st.store] }

/-- `fetchContentImages` (src/index.js:55-115), over simulated pages;
returns the new state and the number of page requests issued. -/
def fetchContentImages (pages : List Page) (st : SysState) : SysState × Nat :=
  let st1 := loadCacheStep st
  let r := sweepPages id pages st1.store none
  (persistStep { st1 with store := r.store }, r.requests)

/-- `fetchCollectionImages` (src/index.js:118-176). -/
def fetchCollectionImages (pages : List Page) (st : SysState) : SysState × Nat :=
  let st1 := loadCacheStep st
  let r := sweepPages (fun s => s ++ "_collection") pages st1.store none
  (persistStep { st1 with store := r.store }, r.requests)

/-- `fetchProductImages` (src/index.js:179-242). -/
def fetchProductImages (pages : List ProdPage) (st : SysState) : SysState × Nat :=
  let st1 := loadCacheStep st
  let r := sweepProducts pages st1.store none
  (persistStep { st1 with store := r.store }, r.requests)

/-- `fetchShopifyFiles` (src/index.js:245-258): reset, then the three sweeps. -/
def fetchShopifyFiles (cp lp : List Page) (pp : List ProdPage) (st : SysState) :
    SysState × Nat :=
  let st0 : SysState := { st with store := [] }
  let r1 := fetchContentImages cp st0
  let r2 := fetchCollectionImages lp r1.1
  let r3 := fetchProductImages pp r2.1
  (r3.1, r1.2 + r2.2 + r3.2)

/-- The main IIFE's index phase (src/index.js:404-413): when the cache file
exists it is loaded and no fetching happens at all; otherwise
`fetchShopifyFiles` runs. -/
def mainRun (cp lp : List Page) (pp : List ProdPage) (st : SysState) : SysState × Nat :=
  match st.cacheFile with
  | some c => ({ st with store := c }, 0)
  | none => fetchShopifyFiles cp lp pp st

/-! Generation call (generateAltText, src/index.js:261-308). -/

/-- Configuration constants (src/index.js:16-20). -/
def batchSize : Nat := 500

/-- Rows per OpenAI chunk. -/
def openAiChunkSize : Nat := 30

/-- Delay between chunks, in milliseconds. -/
def openAiChunkDelay : Nat := 20000

/-- Tokens-per-minute budget. -/
def openAiRateLimit : Nat := 30000

/-- `Math.ceil((60 / (openAiRateLimit / 880)) * 1000)`: the per-request
retry delay derived from the token budget and an estimated 880 tokens per
call; expressed as an exact ceiling over naturals. -/
def openAiRequestDelay : Nat :=
  (60 * 880 * 1000 + (openAiRateLimit - 1)) / openAiRateLimit

/-- One simulated response of the generation API: a successful completion
carrying `choices[0]?.message?.content` (absent pieces collapse to `none`),
a rate-limit error (`error.code === "rate_limit_exceeded"`), or any other
failure. -/
inductive GenResp where
  | ok (content : Option String)
  | rateLimit
  | err

/-- Outcome of a `generateAltText` run: returned text, number of retries,
and total milliseconds spent waiting on rate limits. -/
structure CallResult where
  text : String
  retries : Nat
  waited : Nat

/-- `response.data.choices[0]?.message?.content?.trim() || "Empty Alt Text"`
(src/index.js:288-290). -/
def extractContent : Option String → String
  | none => "Empty Alt Text"
  | some s => if trimStr s = "" then "Empty Alt Text" else trimStr s

/-- `generateAltText` (src/index.js:261-308) over a list of simulated
responses consumed one per attempt: success returns the extracted text, a
rate limit waits `openAiRequestDelay` and retries, anything else returns
the sentinel without retrying.  `none` means the simulated responses ran
out while the loop was still retrying. -/
def generateAltText : List GenResp → Option CallResult
  | [] => none
  | GenResp.ok c :: _ => some ⟨extractContent c, 0, 0⟩
  | GenResp.err :: _ => some ⟨"Error generating alt text", 0, 0⟩
  | GenResp.rateLimit :: rest =>
    (generateAltText rest).map (fun r => ⟨r.text, r.retries + 1, r.waited + openAiRequestDelay⟩)

/-! Resilient remote call (safeShopifyQuery, src/index.js:27-52). -/

/-- One simulated response of the source API: success, an HTTP 429
(`error.response?.status === 429`), or any other error. -/
inductive ApiResp (α : Type) where
  | ok (val : α)
  | rateLimit
  | err (msg : String)

/-- Outcome of a `safeShopifyQuery` run: the value returned to the caller or
the error thrown to it, the number of retries, and the total wait. -/
structure QueryResult (α : Type) where
  outcome : Except String α
  retries : Nat
  waited : Nat

/-- `safeShopifyQuery` (src/index.js:27-52): a 429 waits 5000 ms and
retries, success returns, any other error is thrown to the caller. -/
def safeShopifyQuery {α : Type} : List (ApiResp α) → Option (QueryResult α)
  | [] => none
  | ApiResp.ok v :: _ => some ⟨Except.ok v, 0, 0⟩
  | ApiResp.err m :: _ => some ⟨Except.error m, 0, 0⟩
  | ApiResp.rateLimit :: rest =>
    (safeShopifyQuery rest).map (fun r => ⟨r.outcome, r.retries + 1, r.waited + 5000⟩)

/-! CSV pipeline (processCsv / processBatch, src/index.js:311-401). -/

/-- One CSV row, with the columns of the output header
(src/index.js:315-329) plus the transient `"Updated Link"` field set during
processing and stripped before writing. -/
structure Row where
  id : String
  fileName : String
  command : String
  link : String
  altText : String
  createdAt : String
  ftype : String
  mimeType : String
  width : String
  height : String
  duration : String
  status : String
  errors : String
  updatedLink : Option String

/-- URL resolution for one row (src/index.js:366-382): exact lookup of the
trimmed file name, then one retry with the `_product`/`_collection` suffix
stripped; an empty-string value is falsy in JS and counts as a miss. -/
def resolveUrl (files : Store) (fn : String) : Option String :=
  let m1 := storeGet files fn
  let m2 :=
    match m1 with
    | some u => if u = "" then storeGet files (cleanFileName fn) else some u
    | none => storeGet files (cleanFileName fn)
  match m2 with
  | some u => if u = "" then none else some u
  | none => none

/-- The per-row body of the chunk loop (src/index.js:358-391).  Returns the
(possibly mutated) row and the list of URLs for which the generation API
was invoked.  `gen` abstracts the string `generateAltText` eventually
returns for a URL. -/
def processRow (files : Store) (gen : String → String) (row : Row) : Row × List String :=
  let fn := trimStr row.fileName
  if fn = "" then (row, [])
  else
    match resolveUrl files fn with
    | none => (row, [])
    | some u =>
      let row1 := { row with updatedLink := some u }
      if row1.altText = "" then ({ row1 with altText := gen u }, [u])
      else (row1, [])

/-- The destructuring `({ "Updated Link": _, ...rest }) => rest` applied to
every row before writing (src/index.js:398). -/
def stripUpdatedLink (r : Row) : Row := { r with updatedLink := none }

/-- Fuel-indexed slicing: with fuel at least `l.length` and `0 < n` this is
the sequence of `slice(i, i + n)` windows of the JS batch/chunk loops. -/
def chunksAux (n : Nat) {α : Type} : Nat → List α → List (List α)
  | _, [] => []
  | 0, _ :: _ => []
  | fuel + 1, x :: xs => (x :: xs).take n :: chunksAux n fuel ((x :: xs).drop n)

/-- The `for (let i = 0; i < l.length; i += n) l.slice(i, i + n)` loop of
`processCsv` and `processBatch` (src/index.js:342-345,354-355). -/
def chunks (n : Nat) {α : Type} (l : List α) : List (List α) :=
  chunksAux n l.length l

/-- Lengths of the successive slices of a list of length `m`. -/
def natChunksAux (n : Nat) : Nat → Nat → List Nat
  | _, 0 => []
  | 0, _ + 1 => []
  | fuel + 1, m + 1 => min n (m + 1) :: natChunksAux n fuel (m + 1 - n)

/-- Length profile of `chunks n` on a list of length `m`. -/
def natChunks (n m : Nat) : List Nat := natChunksAux n m m

/-- `processBatch` (src/index.js:351-401): slice the batch into chunks of
`openAiChunkSize`, run the per-row body over every chunk in order, then
strip the transient field from every row of the batch.  Returns the rows
handed to `csvWriter.writeRecords` and the generation calls made. -/
def processBatch (files : Store) (gen : String → String) (rows : List Row) :
    List Row × List String :=
  let cs := chunks openAiChunkSize rows
  let processedRows := (cs.map (fun c => c.map (processRow files gen))).flatten
  (processedRows.map (fun p => stripUpdatedLink p.1),
   (processedRows.map (fun p => p.2)).flatten)

/-- `processCsv` (src/index.js:311-349): slice all rows into batches of
`batchSize` and feed each batch to `processBatch`, writing once per batch.
The first component is the list of `writeRecords` payloads in order. -/
def processCsv (files : Store) (gen : String → String) (rows : List Row) :
    List (List Row) × List String :=
  let bs := chunks batchSize rows
  (bs.map (fun b => (processBatch files gen b).1),
   (bs.map (fun b => (processBatch files gen b).2)).flatten)

/-! Concrete data used by witnesses and counterexamples. -/

/-- A generation oracle used where a concrete one is needed. -/
def genConst : String → String := fun _ => "generated text"

/-- A row with every field blank. -/
def rowBlank : Row := ⟨"", "", "", "", "", "", "", "", "", "", "", "", "", none⟩

/-- A row that already carries alt text. -/
def rowWithAlt : Row :=
  ⟨"1", "shoe.jpg", "", "", "existing text", "", "", "", "", "", "", "", "", none⟩

/-- Simulated pages exercising the missing-URL edge skip and a duplicate
derived filename: two usable URLs sharing the filename `x.jpg`, then a
final edge with no URL. -/
def pagesCE : List Page :=
  [⟨[⟨"c1", some "a/x.jpg"⟩, ⟨"c2", some "b/x.jpg"⟩, ⟨"c3", none⟩], false⟩]

/-- A well-formed two-page simulated API. -/
def pagesW : List Page :=
  [⟨[⟨"c1", some "a/x.jpg"⟩], true⟩, ⟨[⟨"c2", some "a/y.jpg"⟩], false⟩]

/-- A store holding one content-image entry. -/
def filesW : Store := [("shoe.jpg", "cdn/shoe.jpg")]

/-- 1237 input rows. -/
def rowsW : List Row := List.replicate 1237 rowBlank

/-- Repeated JS-object assignment of a list of entries. -/
def setFold (s : Store) (entries : List (String × String)) : Store :=
  entries.foldl (fun st kv => storeSet st kv.1 kv.2) s

/-- A one-page simulated content API whose only item derives the filename
`b.jpg`. -/
def cpCE : List Page := [⟨[⟨"c1", some "b/b.jpg"⟩], false⟩]

/-- A start state whose cache file already exists, holding one entry. -/
def stCE : SysState := ⟨some [("a.jpg", "ua")], [], []⟩

/-! General lemmas about the slicing loops. -/

theorem chunksAux_map_length {α : Type} (n : Nat) (hn : 0 < n) :
    ∀ (fuel : Nat) (l : List α), l.length ≤ fuel →
      (chunksAux n fuel l).map List.length = natChunksAux n fuel l.length := by
  intro fuel
  induction fuel with
  | zero =>
    intro l hl
    have hnil : l = [] := List.eq_nil_of_length_eq_zero (Nat.le_zero.mp hl)
    subst hnil
    rfl
  | succ f ih =>
    intro l hl
    cases l with
    | nil => rfl
    | cons x xs =>
      have hrec := ih ((x :: xs).drop n) (by
        rw [List.length_drop]
        simp only [List.length_cons] at hl ⊢
        omega)
      show ((x :: xs).take n :: chunksAux n f ((x :: xs).drop n)).map List.length
          = natChunksAux n (f + 1) (x :: xs).length
      rw [List.map_cons, List.length_take, hrec, List.length_drop]
      rfl

theorem chunksAux_flatten {α : Type} (n : Nat) (hn : 0 < n) :
    ∀ (fuel : Nat) (l : List α), l.length ≤ fuel → (chunksAux n fuel l).flatten = l := by
  intro fuel
  induction fuel with
  | zero =>
    intro l hl
    have hnil : l = [] := List.eq_nil_of_length_eq_zero (Nat.le_zero.mp hl)
    subst hnil
    rfl
  | succ f ih =>
    intro l hl
    cases l with
    | nil => rfl
    | cons x xs =>
      have hrec := ih ((x :: xs).drop n) (by
        rw [List.length_drop]
        simp only [List.length_cons] at hl ⊢
        omega)
      show (x :: xs).take n ++ (chunksAux n f ((x :: xs).drop n)).flatten = x :: xs
      rw [hrec, List.take_append_drop]

theorem chunks_map_length {α : Type} {n : Nat} (hn : 0 < n) (l : List α) :
    (chunks n l).map List.length = natChunks n l.length :=
  chunksAux_map_length n hn l.length l le_rfl

theorem chunks_flatten {α : Type} {n : Nat} (hn : 0 < n) (l : List α) :
    (chunks n l).flatten = l :=
  chunksAux_flatten n hn l.length l le_rfl

/-! Lemmas about the per-row body and the batch writer. -/

theorem processRow_cases (files : Store) (gen : String → String) (r : Row) :
    ((processRow files gen r).1 = r ∧ (processRow files gen r).2 = []) ∨
    (∃ u, resolveUrl files (trimStr r.fileName) = some u ∧
      (((processRow files gen r).1 = { r with updatedLink := some u } ∧
        (processRow files gen r).2 = [] ∧ r.altText ≠ "") ∨
       ((processRow files gen r).1 = { r with altText := gen u, updatedLink := some u } ∧
        (processRow files gen r).2 = [u] ∧ r.altText = ""))) := by
  by_cases h1 : trimStr r.fileName = ""
  · left
    constructor <;> simp [processRow, h1]
  · cases hres : resolveUrl files (trimStr r.fileName) with
    | none =>
      left
      constructor <;> simp [processRow, h1, hres]
    | some u =>
      right
      refine ⟨u, rfl, ?_⟩
      by_cases h2 : r.altText = ""
      · right
        refine ⟨?_, ?_, h2⟩ <;> simp [processRow, h1, hres, h2]
      · left
        refine ⟨?_, ?_, h2⟩ <;> simp [processRow, h1, hres, h2]

theorem processBatch_eq (files : Store) (gen : String → String) (rows : List Row) :
    processBatch files gen rows =
      (rows.map (fun r => stripUpdatedLink (processRow files gen r).1),
       (rows.map (fun r => (processRow files gen r).2)).flatten) := by
  have hflat : ((chunks openAiChunkSize rows).map
      (fun c => c.map (processRow files gen))).flatten = rows.map (processRow files gen) := by
    rw [← List.map_flatten, chunks_flatten (by decide : (0:Nat) < openAiChunkSize)]
  simp only [processBatch, hflat, List.map_map]
  rfl

theorem processBatch_length (files : Store) (gen : String → String) (rows : List Row) :
    ((processBatch files gen rows).1).length = rows.length := by
  rw [show (processBatch files gen rows).1
      = rows.map (fun r => stripUpdatedLink (processRow files gen r).1)
    from congrArg Prod.fst (processBatch_eq files gen rows)]
  exact List.length_map rows _

/-! Claim theorems. -/

/-- Claim C4: a row whose alt-text field is already non-empty keeps its alt
text unchanged and triggers no generation call. -/
theorem altText_idempotent (files : Store) (gen : String → String) (r : Row)
    (h : r.altText ≠ "") :
    (processRow files gen r).1.altText = r.altText ∧ (processRow files gen r).2 = [] := by
  rcases processRow_cases files gen r with ⟨h1, h2⟩ | ⟨u, _, ⟨h1, h2, _⟩ | ⟨_, _, h3⟩⟩
  · rw [h1]
    exact ⟨rfl, h2⟩
  · rw [h1]
    exact ⟨rfl, h2⟩
  · exact absurd h3 h

/-- Witness for C4 at a concrete row already carrying alt text. -/
theorem altText_idempotent_witness :
    rowWithAlt.altText ≠ "" ∧
    ((processRow filesW genConst rowWithAlt).1.altText = rowWithAlt.altText ∧
     (processRow filesW genConst rowWithAlt).2 = []) :=
  ⟨by decide, altText_idempotent filesW genConst rowWithAlt (by decide)⟩

/-- Claim C6: when the exact file name misses, the lookup is retried exactly
once with a single trailing suffix stripped; `"shoe.jpg_product"` resolves
through key `"shoe.jpg"`; a double miss leaves the row untouched with no
generation call. -/
theorem suffix_strip_fallback (files : Store) (gen : String → String) (r : Row) :
    cleanFileName "shoe.jpg_product" = "shoe.jpg" ∧
    (∀ fn : String, storeGet files fn = none →
      resolveUrl files fn =
        match storeGet files (cleanFileName fn) with
        | some u => if u = "" then none else some u
        | none => none) ∧
    (∀ u : String, storeGet files "shoe.jpg_product" = none →
      storeGet files "shoe.jpg" = some u → u ≠ "" →
      resolveUrl files "shoe.jpg_product" = some u) ∧
    (storeGet files (trimStr r.fileName) = none →
     storeGet files (cleanFileName (trimStr r.fileName)) = none →
     processRow files gen r = (r, [])) := by
  have hclean : cleanFileName "shoe.jpg_product" = "shoe.jpg" := by decide
  refine ⟨hclean, ?_, ?_, ?_⟩
  · intro fn hmiss
    simp [resolveUrl, hmiss]
  · intro u h1 h2 h3
    simp [resolveUrl, h1, hclean, h2, h3]
  · intro h1 h2
    by_cases h0 : trimStr r.fileName = ""
    · simp [processRow, h0]
    · simp [processRow, h0, resolveUrl, h1, h2]

/-- Witness for C6: a store with only key `"shoe.jpg"` resolves the file
name `"shoe.jpg_product"` to that key's URL. -/
theorem suffix_strip_fallback_witness :
    storeGet filesW "shoe.jpg_product" = none ∧
    storeGet filesW "shoe.jpg" = some "cdn/shoe.jpg" ∧
    resolveUrl filesW "shoe.jpg_product" = some "cdn/shoe.jpg" :=
  ⟨by decide, by decide,
    (suffix_strip_fallback filesW genConst rowBlank).2.2.1 "cdn/shoe.jpg"
      (by decide) (by decide) (by decide)⟩

/-- Claim C7: a rate-limit answer from the generation API adds one retry and
a wait of `openAiRequestDelay` (derived from the tokens-per-minute budget
and the 880-token per-call estimate) without changing the eventual result;
one rate limit followed by success yields exactly one retry and the
genuinely generated, non-sentinel text; any other failure returns the
sentinel immediately, and the batch write still covers every row. -/
theorem generateAltText_rate_limit_retry :
    (∀ rest : List GenResp,
      generateAltText (GenResp.rateLimit :: rest) =
        (generateAltText rest).map
          (fun r => ⟨r.text, r.retries + 1, r.waited + openAiRequestDelay⟩)) ∧
    openAiRequestDelay = 1760 ∧
    (∀ rest : List GenResp,
      generateAltText (GenResp.err :: rest) = some ⟨"Error generating alt text", 0, 0⟩) ∧
    (∀ s : String, trimStr s ≠ "" → trimStr s ≠ "Error generating alt text" →
      generateAltText [GenResp.rateLimit, GenResp.ok (some s)] =
        some ⟨trimStr s, 1, openAiRequestDelay⟩ ∧
      Option.map CallResult.text
          (generateAltText [GenResp.rateLimit, GenResp.ok (some s)]) ≠
        some "Error generating alt text") ∧
    (∀ (files : Store) (gen : String → String) (rows : List Row),
      ((processBatch files gen rows).1).length = rows.length) := by
  refine ⟨fun rest => rfl, by decide, fun rest => rfl, ?_, processBatch_length⟩
  intro s h1 h2
  have he : extractContent (some s) = trimStr s := by
    simp [extractContent, h1]
  constructor
  · simp [generateAltText, he]
  · simp [generateAltText, he, h2]

/-- Witness for C7: one rate limit then a successful completion. -/
theorem generateAltText_rate_limit_retry_witness :
    trimStr " desc " ≠ "" ∧ trimStr " desc " ≠ "Error generating alt text" ∧
    generateAltText [GenResp.rateLimit, GenResp.ok (some " desc ")] =
      some ⟨trimStr " desc ", 1, openAiRequestDelay⟩ :=
  ⟨by decide, by decide,
    (generateAltText_rate_limit_retry.2.2.2.1 " desc " (by decide) (by decide)).1⟩

/-- Claim C8: the resilient source-API call maps a 429 to one more retry and
5000 ms more waiting with the caller-visible outcome unchanged, retries
through any number of consecutive 429s, and throws any other error to the
caller immediately with zero retries. -/
theorem safeShopifyQuery_retry_propagate :
    (∀ (α : Type) (rest : List (ApiResp α)),
      safeShopifyQuery (ApiResp.rateLimit :: rest) =
        (safeShopifyQuery rest).map
          (fun r => ⟨r.outcome, r.retries + 1, r.waited + 5000⟩)) ∧
    (∀ (α : Type) (n : Nat) (v : α),
      safeShopifyQuery (List.replicate n ApiResp.rateLimit ++ [ApiResp.ok v]) =
        some ⟨Except.ok v, n, 5000 * n⟩) ∧
    (∀ (α : Type) (m : String) (rest : List (ApiResp α)),
      safeShopifyQuery (ApiResp.err m :: rest) = some ⟨Except.error m, 0, 0⟩) := by
  refine ⟨fun α rest => rfl, ?_, fun α m rest => rfl⟩
  intro α n v
  induction n with
  | zero => rfl
  | succ k ih =>
    rw [List.replicate_succ, List.cons_append]
    have hstep : safeShopifyQuery
        (ApiResp.rateLimit :: (List.replicate k (ApiResp.rateLimit (α := α)) ++ [ApiResp.ok v])) =
        (safeShopifyQuery (List.replicate k ApiResp.rateLimit ++ [ApiResp.ok v])).map
          (fun r => (⟨r.outcome, r.retries + 1, r.waited + 5000⟩ : QueryResult α)) := rfl
    rw [hstep, ih]
    simp [Nat.mul_succ]

/-- Claim C9: every input row of a batch reaches the written output in
order, with the transient resolved-URL field removed and every other field
unchanged except possibly the alt text, which is either the original or a
generation result for the resolved URL. -/
theorem processBatch_frame (files : Store) (gen : String → String) (rows : List Row) :
    List.Forall₂ (fun r out =>
      out.updatedLink = none ∧ out.id = r.id ∧ out.fileName = r.fileName ∧
      out.command = r.command ∧ out.link = r.link ∧ out.createdAt = r.createdAt ∧
      out.ftype = r.ftype ∧ out.mimeType = r.mimeType ∧ out.width = r.width ∧
      out.height = r.height ∧ out.duration = r.duration ∧ out.status = r.status ∧
      out.errors = r.errors ∧
      (out.altText = r.altText ∨
        ∃ u, resolveUrl files (trimStr r.fileName) = some u ∧ out.altText = gen u))
      rows ((processBatch files gen rows).1) := by
  rw [show (processBatch files gen rows).1
      = rows.map (fun r => stripUpdatedLink (processRow files gen r).1)
    from congrArg Prod.fst (processBatch_eq files gen rows)]
  rw [List.forall₂_map_right_iff, List.forall₂_same]
  intro r _
  rcases processRow_cases files gen r with ⟨h1, _⟩ | ⟨u, hu, ⟨h1, _, _⟩ | ⟨h1, _, _⟩⟩
  · rw [h1]
    exact ⟨rfl, rfl, rfl, rfl, rfl, rfl, rfl, rfl, rfl, rfl, rfl, rfl, rfl, Or.inl rfl⟩
  · rw [h1]
    exact ⟨rfl, rfl, rfl, rfl, rfl, rfl, rfl, rfl, rfl, rfl, rfl, rfl, rfl, Or.inl rfl⟩
  · rw [h1]
    exact ⟨rfl, rfl, rfl, rfl, rfl, rfl, rfl, rfl, rfl, rfl, rfl, rfl, rfl,
      Or.inr ⟨u, hu, rfl⟩⟩

/-- Claim C3: 1237 rows with batch size 500 and chunk size 30 give exactly
the batches 500, 500, 237 in input order, chunks of 30 with a shorter final
chunk per batch, and exactly three sink writes whose concatenation is the
full input in order. -/
theorem batch_chunk_partitioning (files : Store) (gen : String → String)
    (rows : List Row) (h : rows.length = 1237) :
    (chunks batchSize rows).map List.length = [500, 500, 237] ∧
    (chunks batchSize rows).flatten = rows ∧
    (∀ b ∈ chunks batchSize rows,
      (chunks openAiChunkSize b).map List.length = natChunks 30 b.length ∧
      (chunks openAiChunkSize b).flatten = b) ∧
    natChunks 30 500 = (List.replicate 16 30 ++ [20]) ∧
    natChunks 30 237 = (List.replicate 7 30 ++ [27]) ∧
    ((processCsv files gen rows).1).length = 3 ∧
    (processCsv files gen rows).1 =
      (chunks batchSize rows).map (fun b => (processBatch files gen b).1) ∧
    (((processCsv files gen rows).1).map (fun out => out.map Row.id)).flatten =
      rows.map Row.id := by
  have h500 : (0:Nat) < batchSize := by decide
  have h30 : (0:Nat) < openAiChunkSize := by decide
  have hml : (chunks batchSize rows).map List.length = [500, 500, 237] := by
    rw [chunks_map_length h500, h]
    decide
  have hfl : (chunks batchSize rows).flatten = rows := chunks_flatten h500 rows
  have hid : ∀ b : List Row, ((processBatch files gen b).1).map Row.id = b.map Row.id := by
    intro b
    rw [show (processBatch files gen b).1
        = b.map (fun r => stripUpdatedLink (processRow files gen r).1)
      from congrArg Prod.fst (processBatch_eq files gen b)]
    rw [List.map_map]
    apply List.map_congr_left
    intro r _
    show (stripUpdatedLink (processRow files gen r).1).id = r.id
    rcases processRow_cases files gen r with ⟨h1, _⟩ | ⟨u, _, ⟨h1, _, _⟩ | ⟨h1, _, _⟩⟩ <;>
      rw [h1] <;> rfl
  refine ⟨hml, hfl, ?_, by decide, by decide, ?_, rfl, ?_⟩
  · intro b _
    exact ⟨chunks_map_length h30 b, chunks_flatten h30 b⟩
  · have hlen : ((processCsv files gen rows).1).length = (chunks batchSize rows).length := by
      simp [processCsv]
    rw [hlen]
    have h3 := congrArg List.length hml
    simpa using h3
  · have hflat2 : ∀ bs : List (List Row),
        ((bs.map (fun b => (processBatch files gen b).1)).map
          (fun out => out.map Row.id)).flatten = (bs.flatten).map Row.id := by
      intro bs
      induction bs with
      | nil => rfl
      | cons b rest ih =>
        rw [List.map_cons, List.map_cons, List.flatten_cons, ih, hid b,
          List.flatten_cons, List.map_append]
    show (((chunks batchSize rows).map (fun b => (processBatch files gen b).1)).map
        (fun out => out.map Row.id)).flatten = rows.map Row.id
    rw [hflat2, hfl]

/-- Witness for C3 at 1237 concrete rows. -/
theorem batch_chunk_partitioning_witness :
    rowsW.length = 1237 ∧ (chunks batchSize rowsW).map List.length = [500, 500, 237] :=
  ⟨by simp only [rowsW, List.length_replicate],
   (batch_chunk_partitioning filesW genConst rowsW
     (by simp only [rowsW, List.length_replicate])).1⟩

/-- Claim C10: an API-level success whose first completion lacks content or
trims to the empty string yields the fixed placeholder `"Empty Alt Text"`,
distinct from both genuinely generated text and the failure sentinel. -/
theorem generateAltText_empty_content (rest : List GenResp) (s : String) :
    generateAltText (GenResp.ok none :: rest) = some ⟨"Empty Alt Text", 0, 0⟩ ∧
    (trimStr s = "" →
      generateAltText (GenResp.ok (some s) :: rest) = some ⟨"Empty Alt Text", 0, 0⟩) ∧
    (trimStr s ≠ "" →
      generateAltText (GenResp.ok (some s) :: rest) = some ⟨trimStr s, 0, 0⟩) ∧
    ("Empty Alt Text" : String) ≠ "Error generating alt text" ∧
    ("Empty Alt Text" : String) ≠ "" := by
  refine ⟨rfl, ?_, ?_, by decide, by decide⟩
  · intro hs
    simp [generateAltText, extractContent, hs]
  · intro hs
    simp [generateAltText, extractContent, hs]

/-- Witness for C10: a completion whose content trims to the empty string. -/
theorem generateAltText_empty_content_witness :
    trimStr "   " = "" ∧
    generateAltText [GenResp.ok (some "   ")] = some ⟨"Empty Alt Text", 0, 0⟩ :=
  ⟨by decide, (generateAltText_empty_content [] "   ").2.1 (by decide)⟩

/-! Lemmas about the store and the sweeps. -/

theorem storeSize_eq_keys_length (s : Store) : storeSize s = (storeKeys s).length := by
  unfold storeSize storeKeys
  rw [List.length_map]

theorem storeKeys_set (s : Store) (k v : String) :
    storeKeys (storeSet s k v) =
      if k ∈ storeKeys s then storeKeys s else storeKeys s ++ [k] := by
  by_cases h : k ∈ storeKeys s
  · rw [storeSet, if_pos h, if_pos h]
    show ((s.map fun p => if p.1 = k then (k, v) else p).map Prod.fst) = storeKeys s
    rw [List.map_map]
    apply List.map_congr_left
    intro p _
    show (if p.1 = k then (k, v) else p).1 = p.1
    by_cases hp : p.1 = k
    · rw [if_pos hp]
      exact hp.symm
    · rw [if_neg hp]
  · rw [storeSet, if_neg h, if_neg h]
    show (s ++ [(k, v)]).map Prod.fst = storeKeys s ++ [k]
    rw [List.map_append]
    rfl

theorem storeKeys_set_nodup (s : Store) (k v : String) (h : (storeKeys s).Nodup) :
    (storeKeys (storeSet s k v)).Nodup := by
  rw [storeKeys_set]
  by_cases hk : k ∈ storeKeys s
  · rw [if_pos hk]
    exact h
  · rw [if_neg hk]
    simp [List.nodup_append, h, hk]

theorem storeKeys_set_toFinset (s : Store) (k v : String) :
    (storeKeys (storeSet s k v)).toFinset = insert k (storeKeys s).toFinset := by
  rw [storeKeys_set]
  by_cases hk : k ∈ storeKeys s
  · rw [if_pos hk]
    exact (Finset.insert_eq_self.mpr (List.mem_toFinset.mpr hk)).symm
  · rw [if_neg hk]
    show ((storeKeys s) ++ [k]).toFinset = insert k (storeKeys s).toFinset
    rw [List.toFinset_append, List.toFinset_cons, List.toFinset_nil, Finset.union_comm,
      Finset.insert_union, Finset.empty_union]

theorem setFold_keys (entries : List (String × String)) :
    ∀ s : Store, (storeKeys s).Nodup →
      (storeKeys (setFold s entries)).Nodup ∧
      (storeKeys (setFold s entries)).toFinset =
        (storeKeys s).toFinset ∪ (entries.map Prod.fst).toFinset := by
  induction entries with
  | nil =>
    intro s h
    refine ⟨h, ?_⟩
    simp [setFold]
  | cons kv rest ih =>
    intro s h
    have hstep : setFold s (kv :: rest) = setFold (storeSet s kv.1 kv.2) rest := rfl
    obtain ⟨ihn, iht⟩ := ih (storeSet s kv.1 kv.2) (storeKeys_set_nodup s kv.1 kv.2 h)
    refine ⟨by rw [hstep]; exact ihn, ?_⟩
    rw [hstep, iht, storeKeys_set_toFinset, List.map_cons, List.toFinset_cons,
      Finset.insert_union, Finset.union_insert]

theorem processEdge_eq (keyOf : String → String) (sc : Store × Option String) (e : Edge) :
    processEdge keyOf sc e = (storeStep keyOf sc.1 e, cursorStep sc.2 e) := by
  rcases e with ⟨c, ou⟩
  cases ou with
  | none => rfl
  | some u =>
    by_cases hu : u = ""
    · simp [processEdge, storeStep, edgeEntry, cursorStep, hu]
    · by_cases hf : fileNameOf u = ""
      · simp [processEdge, storeStep, edgeEntry, cursorStep, hu, hf]
      · simp [processEdge, storeStep, edgeEntry, cursorStep, hu, hf]

theorem foldl_processEdge_eq (keyOf : String → String) (edges : List Edge) :
    ∀ sc : Store × Option String,
      edges.foldl (processEdge keyOf) sc =
        (edges.foldl (storeStep keyOf) sc.1, edges.foldl cursorStep sc.2) := by
  induction edges with
  | nil => intro sc; rfl
  | cons e rest ih =>
    intro sc
    rw [List.foldl_cons, processEdge_eq, ih]
    rfl

theorem processPage_eq (keyOf : String → String) (sc : Store × Option String) (p : Page) :
    processPage keyOf sc p =
      (p.edges.foldl (storeStep keyOf) sc.1, p.edges.foldl cursorStep sc.2) :=
  foldl_processEdge_eq keyOf p.edges sc

theorem foldl_storeStep_eq_setFold (keyOf : String → String) (edges : List Edge) :
    ∀ st : Store,
      edges.foldl (storeStep keyOf) st = setFold st (edges.filterMap (edgeEntry keyOf)) := by
  induction edges with
  | nil => intro st; rfl
  | cons e rest ih =>
    intro st
    rw [List.foldl_cons]
    cases he : edgeEntry keyOf e with
    | none =>
      have hs : storeStep keyOf st e = st := by
        unfold storeStep
        rw [he]
      have hf : (e :: rest).filterMap (edgeEntry keyOf)
          = rest.filterMap (edgeEntry keyOf) := by
        simp [List.filterMap_cons, he]
      rw [hs, ih, hf]
    | some kv =>
      have hs : storeStep keyOf st e = storeSet st kv.1 kv.2 := by
        unfold storeStep
        rw [he]
      have hf : (e :: rest).filterMap (edgeEntry keyOf)
          = kv :: rest.filterMap (edgeEntry keyOf) := by
        simp [List.filterMap_cons, he]
      rw [hs, ih, hf]
      rfl

theorem foldl_cursorStep_eq (edges : List Edge) :
    ∀ cur : Option String,
      edges.foldl cursorStep cur =
        ((edges.filter urlTruthy).getLast?).elim cur (fun e => some e.cursor) := by
  induction edges using List.reverseRecOn with
  | nil => intro cur; rfl
  | append_singleton l e ih =>
    intro cur
    rw [List.foldl_append, List.foldl_cons, List.foldl_nil, List.filter_append]
    cases ht : urlTruthy e with
    | true =>
      have hc : ∀ c : Option String, cursorStep c e = some e.cursor := by
        intro c
        rcases e with ⟨ec, ou⟩
        cases ou with
        | none => simp [urlTruthy] at ht
        | some u =>
          simp [urlTruthy] at ht
          simp [cursorStep, ht]
      have hf : List.filter urlTruthy [e] = [e] := by
        simp [List.filter, ht]
      rw [hc, hf, List.getLast?_concat]
      rfl
    | false =>
      have hc : ∀ c : Option String, cursorStep c e = c := by
        intro c
        rcases e with ⟨ec, ou⟩
        cases ou with
        | none => rfl
        | some u =>
          simp [urlTruthy] at ht
          simp [cursorStep, ht]
      have hf : List.filter urlTruthy [e] = [] := by
        simp [List.filter, ht]
      rw [hc, hf, List.append_nil, ih]

theorem sweepPages_cons (keyOf : String → String) (p : Page) (rest : List Page)
    (st : Store) (cur : Option String) :
    sweepPages keyOf (p :: rest) st cur =
      if p.hasNextPage then
        ⟨(sweepPages keyOf rest (processPage keyOf (st, cur) p).1
            (processPage keyOf (st, cur) p).2).store,
         (sweepPages keyOf rest (processPage keyOf (st, cur) p).1
            (processPage keyOf (st, cur) p).2).cursor,
         (sweepPages keyOf rest (processPage keyOf (st, cur) p).1
            (processPage keyOf (st, cur) p).2).requests + 1⟩
      else ⟨(processPage keyOf (st, cur) p).1, (processPage keyOf (st, cur) p).2, 1⟩ := rfl

theorem sweep_components (keyOf : String → String) :
    ∀ pages : List Page, pagesWF pages = true → ∀ (st : Store) (cur : Option String),
      sweepPages keyOf pages st cur =
        ⟨((pages.map Page.edges).flatten).foldl (storeStep keyOf) st,
         ((pages.map Page.edges).flatten).foldl cursorStep cur,
         pages.length⟩ := by
  intro pages
  induction pages with
  | nil =>
    intro h
    simp [pagesWF] at h
  | cons p rest ih =>
    intro h st cur
    cases rest with
    | nil =>
      have hp : p.hasNextPage = false := by
        simpa [pagesWF] using h
      simp [sweepPages, hp, processPage_eq]
    | cons q rest2 =>
      have hp : p.hasNextPage = true ∧ pagesWF (q :: rest2) = true := by
        simpa [pagesWF] using h
      rw [sweepPages_cons, if_pos hp.1, ih hp.2, processPage_eq]
      simp [List.foldl_append]

/-! Claims about the index builder and the main flow. -/

/-- Counterexample for claim C1: one page ending in an edge with a missing
URL and containing two usable URLs with the same derived filename.  The
builder issues the one request, but the final cursor is the second edge's
`"c2"` rather than the last edge's `"c3"`, and the index size is 1 rather
than the number of usable items 2. -/
theorem sweep_cursor_size_counterexample :
    (sweepPages id pagesCE [] none).requests = 1 ∧
    (sweepPages id pagesCE [] none).cursor = some "c2" ∧
    storeSize (sweepPages id pagesCE [] none).store = 1 ∧
    ¬((sweepPages id pagesCE [] none).cursor = some "c3" ∧
      storeSize (sweepPages id pagesCE [] none).store = 2) := by
  decide

/-- Claim C1 (amended): for a simulated source API returning N pages and
reporting `hasNextPage: false` on the last, the builder issues exactly N
page requests; after each page the cursor is the cursor of the last edge
whose URL is present and non-empty, or keeps its previous value when a page
has no such edge — an edge with a missing URL never advances the cursor,
even as the page's last edge; and the resulting index size, starting from
an empty store, equals the number of distinct derived keys among the items
with a usable URL and a non-empty derived filename (duplicate keys
collapse, last write wins). -/
theorem sweep_requests_cursor_size_amended (keyOf : String → String) (pages : List Page)
    (h : pagesWF pages = true) :
    (sweepPages keyOf pages [] none).requests = pages.length ∧
    (∀ (st : Store) (cur : Option String) (p : Page),
      (processPage keyOf (st, cur) p).2 =
        ((p.edges.filter urlTruthy).getLast?).elim cur (fun e => some e.cursor)) ∧
    storeSize (sweepPages keyOf pages [] none).store =
      ((((pages.map Page.edges).flatten).filterMap (edgeEntry keyOf)).map
        Prod.fst).toFinset.card := by
  have hsw := sweep_components keyOf pages h [] none
  refine ⟨by rw [hsw], ?_, ?_⟩
  · intro st cur p
    rw [processPage_eq]
    exact foldl_cursorStep_eq p.edges cur
  · rw [hsw]
    show storeSize (((pages.map Page.edges).flatten).foldl (storeStep keyOf) []) = _
    rw [foldl_storeStep_eq_setFold]
    obtain ⟨hn, ht⟩ := setFold_keys
      (((pages.map Page.edges).flatten).filterMap (edgeEntry keyOf)) []
      (by simp [storeKeys])
    rw [storeSize_eq_keys_length, ← List.toFinset_card_of_nodup hn, ht]
    simp [storeKeys]

/-- Witness for the amended C1: a well-formed two-page simulated API. -/
theorem sweep_requests_cursor_size_amended_witness :
    pagesWF pagesW = true ∧ (sweepPages id pagesW [] none).requests = pagesW.length :=
  ⟨by decide, (sweep_requests_cursor_size_amended id pagesW (by decide)).1⟩

/-- Counterexample for claim C2: when the cache file already exists at
process start, the main flow issues zero page requests, never merges the
newly available page (key `"b.jpg"` stays absent although a sweep from the
loaded cache would have added it), and persists nothing — there are no
three per-sweep persists. -/
theorem mainRun_cache_skips_fetch_counterexample :
    (mainRun cpCE [] [] stCE).2 = 0 ∧
    storeGet (mainRun cpCE [] [] stCE).1.store "b.jpg" = none ∧
    (mainRun cpCE [] [] stCE).1.persistLog = [] ∧
    ¬((mainRun cpCE [] [] stCE).1.persistLog).length = 3 ∧
    storeGet (sweepPages id cpCE (stCE.cacheFile.getD []) none).store "b.jpg"
      = some "b/b.jpg" := by
  decide

/-- Claim C2 (amended): at process start, if the cache file exists the store
is loaded from it and the builder is skipped entirely — no requests, no
merge, no persist; only when the file is absent does the builder run its
three sweeps, each starting from the store persisted by the previous sweep
and persisting after it completes, three persists in total. -/
theorem mainRun_lifecycle_amended (cp lp : List Page) (pp : List ProdPage)
    (c s0 : Store) (log0 : List Store) :
    (mainRun cp lp pp ⟨some c, s0, log0⟩ =
      ({ cacheFile := some c, store := c, persistLog := log0 }, 0)) ∧
    (let r1 := sweepPages id cp [] none
     let r2 := sweepPages (fun s => s ++ "_collection") lp r1.store none
     let r3 := sweepProducts pp r2.store none
     mainRun cp lp pp ⟨none, s0, log0⟩ =
       ({ cacheFile := some r3.store, store := r3.store,
          persistLog := log0 ++ [r1.store, r2.store, r3.store] },
        r1.requests + r2.requests + r3.requests)) := by
  refine ⟨rfl, ?_⟩
  show mainRun cp lp pp ⟨none, s0, log0⟩ = _
  simp only [mainRun, fetchShopifyFiles, fetchContentImages, fetchCollectionImages,
    fetchProductImages, loadCacheStep, persistStep, Option.getD]
  simp [List.append_assoc]

/-- Claim C5: after the content sweep and the product sweep, a content image
and a product image sharing the filename `shoe.jpg` occupy the two distinct
keys `"shoe.jpg"` and `"shoe.jpg_product"`, each mapping to its own URL. -/
theorem key_suffix_disambiguation (u1 u2 : String)
    (h1 : fileNameOf u1 = "shoe.jpg") (hu1 : u1 ≠ "")
    (h2 : fileNameOf u2 = "shoe.jpg") (hu2 : u2 ≠ "") :
    storeGet (fetchShopifyFiles [⟨[⟨"c1", some u1⟩], false⟩] [⟨[], false⟩]
        [⟨[⟨"p1", [some u2]⟩], false⟩] ⟨none, [], []⟩).1.store "shoe.jpg" = some u1 ∧
    storeGet (fetchShopifyFiles [⟨[⟨"c1", some u1⟩], false⟩] [⟨[], false⟩]
        [⟨[⟨"p1", [some u2]⟩], false⟩] ⟨none, [], []⟩).1.store "shoe.jpg_product"
      = some u2 := by
  have hstore : (fetchShopifyFiles [⟨[⟨"c1", some u1⟩], false⟩] [⟨[], false⟩]
      [⟨[⟨"p1", [some u2]⟩], false⟩] ⟨none, [], []⟩).1.store
      = [("shoe.jpg", u1), ("shoe.jpg_product", u2)] := by
    simp [fetchShopifyFiles, fetchContentImages, fetchCollectionImages, fetchProductImages,
      loadCacheStep, persistStep, sweepPages, processPage, processEdge, sweepProducts,
      processProdEdge, processProdImage, storeSet, storeKeys, h1, hu1, h2, hu2]
  rw [hstore]
  constructor <;> simp [storeGet, List.find?]

/-- Witness for C5 at two concrete URLs sharing the filename `shoe.jpg`. -/
theorem key_suffix_disambiguation_witness :
    fileNameOf "a/shoe.jpg" = "shoe.jpg" ∧ fileNameOf "b/shoe.jpg?v=1" = "shoe.jpg" ∧
    (storeGet (fetchShopifyFiles [⟨[⟨"c1", some "a/shoe.jpg"⟩], false⟩] [⟨[], false⟩]
        [⟨[⟨"p1", [some "b/shoe.jpg?v=1"]⟩], false⟩] ⟨none, [], []⟩).1.store "shoe.jpg"
      = some "a/shoe.jpg" ∧
     storeGet (fetchShopifyFiles [⟨[⟨"c1", some "a/shoe.jpg"⟩], false⟩] [⟨[], false⟩]
        [⟨[⟨"p1", [some "b/shoe.jpg?v=1"]⟩], false⟩] ⟨none, [], []⟩).1.store
        "shoe.jpg_product" = some "b/shoe.jpg?v=1") :=
  ⟨by decide, by decide,
    key_suffix_disambiguation "a/shoe.jpg" "b/shoe.jpg?v=1" (by decide) (by decide)
      (by decide) (by decide)⟩

end AltTextGen
